import Mathlib

/-!
Verification of the session-construction and multi-touch attribution engine
(`part2-transformation/code/transform.py`) of the puffy_repo pipeline, plus
the gold-table schema constants of `part4-monitoring/code/monitor.py`.

Modelling conventions (shallow embedding of the Python source):
* timestamps are integers counting seconds (pandas datetimes; the source
  computes gaps in minutes as `diff().dt.total_seconds() / 60`, so a gap of
  more than 30 minutes is exactly a gap of more than 1800 seconds);
* a parsed JSON `event_data` payload is an association list of string keys to
  scalar values (numbers or strings); `none` stands for a payload that is
  absent, unparsable, or not a JSON object (every such case makes
  `json.loads`/`dict.get` raise inside `parse_rev`, landing in its `except`
  branch);
* Python truthiness drives the `or`-chains of `parse_rev`: `None`, `0` and
  `""` are falsy;
* monetary values are rationals (the source uses floats, but every claim is
  about exact comparisons on literals);
* pandas `sort_values` is modelled by insertion sort and
  `drop_duplicates('transaction_id')` by a first-occurrence-wins filter in
  which null keys compare equal (pandas treats NaN ids as duplicates of each
  other);
* the upstream load/clean step (file globbing, schema-drift renaming, row
  dedup, ghost-user filtering) is out of scope per the spec; the pipeline is
  modelled from the cleaned event batch onward.  The derived `session_id`
  string key is not needed by any claim and is omitted from the session
  record.
-/

namespace Puffy

/-- A scalar JSON value as it occurs inside an `event_data` payload. -/
inductive JVal where
  | num (q : ℚ)
  | str (s : String)
deriving DecidableEq

/-- A parsed JSON object: an association list from keys to scalar values. -/
def Payload : Type := List (String × JVal)

instance : DecidableEq Payload := by
  unfold Payload
  infer_instance

/-- `d.get(k)` on a Python dict: the value at the first matching key, if any. -/
def pget (d : Payload) (k : String) : Option JVal :=
  (d.find? (fun p => p.1 == k)).map (fun p => p.2)

/-- Python truthiness of a scalar JSON value: `0` and `""` are falsy. -/
def truthy : JVal → Bool
  | .num q => decide (q ≠ 0)
  | .str s => decide (s ≠ "")

/-- Python `a or b` where `a` is the result of a `dict.get` (possibly `None`). -/
def pyOr (a : Option JVal) (b : JVal) : JVal :=
  match a with
  | none => b
  | some v => if truthy v then v else b

/-- Python `float(v)`: succeeds on numbers; a (non-numeric) string raises.
Strings are modelled as non-numeric: no claim feeds a numeric string to
`float`. -/
def toFloat : JVal → Option ℚ
  | .num q => some q
  | .str _ => none

/-- `parse_rev` (transform.py lines 71-75): revenue is
`float(d.get('value') or d.get('revenue') or 0)` and the identity is
`d.get('transaction_id')`; any raise (missing/unparsable payload, or a
`float` failure) yields `(0.0, None)`. -/
def parse_rev (x : Option Payload) : ℚ × Option JVal :=
  match x with
  | none => (0, none)
  | some d =>
    match toFloat (pyOr (pget d "value") (pyOr (pget d "revenue") (.num 0))) with
    | none => (0, none)
    | some q => (q, pget d "transaction_id")

/-- A cleaned clickstream event (transform.py master_df row).  `referrer`
`none` models a NaN cell, which `str(...)` renders as `"nan"`. -/
structure Event where
  client_id : String
  timestamp : Int
  event_name : String
  page_url : String
  referrer : Option String
  event_data : Option Payload
deriving DecidableEq

instance : Inhabited Event := ⟨⟨"", 0, "", "", none, none⟩⟩

/-- ASCII lower-casing of one character (Python `.lower()` on the URL and
referrer strings; all markers searched for are ASCII). -/
def lowerChar (c : Char) : Char :=
  if 'A' ≤ c ∧ c ≤ 'Z' then Char.ofNat (c.toNat + 32) else c

/-- Lower-case a string, as a character list. -/
def lowerStr (s : String) : List Char := s.data.map lowerChar

/-- Does `hay` start with `needle`? -/
def matchStart : List Char → List Char → Bool
  | [], _ => true
  | _ :: _, [] => false
  | a :: as, b :: bs => a == b && matchStart as bs

/-- Python `needle in hay` substring test on character lists. -/
def isSubList (needle : List Char) : List Char → Bool
  | [] => needle.isEmpty
  | c :: t => matchStart needle (c :: t) || isSubList needle t

/-- The lower-cased `page_url` of an event (`str(row.get('page_url',''))`). -/
def urlOf (e : Event) : List Char := lowerStr e.page_url

/-- The lower-cased referrer string; a NaN referrer becomes `"nan"`. -/
def refOf (e : Event) : List Char :=
  match e.referrer with
  | none => "nan".data
  | some s => lowerStr s

/-- `classify_channel` (transform.py lines 37-48), transcribed clause by
clause: an ordered if-chain over lower-cased URL and referrer strings. -/
def classify_channel (e : Event) : String :=
  let url := urlOf e
  let ref := refOf e
  if isSubList "utm_medium=cpc".data url || isSubList "utm_medium=paid".data url then "Paid Search"
  else if isSubList "utm_source=facebook".data url || isSubList "utm_source=instagram".data url then "Paid Social"
  else if isSubList "utm_medium=email".data url then "Email"
  else if isSubList "google.".data ref then "Organic Search"
  else if isSubList "facebook.".data ref || isSubList "t.co".data ref then "Organic Social"
  else if ref == "nan".data || ref == [] then "Direct"
  else "Referral"

/-- The seven channel labels the classifier can produce. -/
def CHANNEL_LABELS : List String :=
  ["Paid Search", "Paid Social", "Email", "Organic Search", "Organic Social", "Direct", "Referral"]

/-- One rule of the classification decision list: a test on the lower-cased
(url, referrer) pair together with the label it assigns. -/
def ChannelRule : Type := (List Char → List Char → Bool) × String

/-- The classifier's decision list, one entry per source clause, in source
order; the trailing default is `Referral`. -/
def channelRules : List ChannelRule :=
  [ (fun url _ => isSubList "utm_medium=cpc".data url || isSubList "utm_medium=paid".data url, "Paid Search")
  , (fun url _ => isSubList "utm_source=facebook".data url || isSubList "utm_source=instagram".data url, "Paid Social")
  , (fun url _ => isSubList "utm_medium=email".data url, "Email")
  , (fun _ ref => isSubList "google.".data ref, "Organic Search")
  , (fun _ ref => isSubList "facebook.".data ref || isSubList "t.co".data ref, "Organic Social")
  , (fun _ ref => ref == "nan".data || ref == [], "Direct") ]

/-- First-match evaluation of an ordered decision list; `"Referral"` is the
default when no rule matches. -/
def firstMatch : List ChannelRule → List Char → List Char → String
  | [], _, _ => "Referral"
  | r :: rest, url, ref => if r.1 url ref then r.2 else firstMatch rest url ref

/-- transform.py line 10. -/
def INACTIVITY_TIMEOUT_MINS : Int := 30

/-- transform.py line 9. -/
def ATTRIBUTION_WINDOW_DAYS : Int := 7

/-- Ordering of events by timestamp (the per-client `sort_values`). -/
def eventLe (a b : Event) : Prop := a.timestamp ≤ b.timestamp

instance : DecidableRel eventLe := fun a b => Int.decLe _ _
instance : IsTotal Event eventLe := ⟨fun a b => Int.le_total _ _⟩
instance : IsTrans Event eventLe := ⟨fun _ _ _ => Int.le_trans⟩

/-- Prepend one event to an already-split suffix of the stream: the event
joins the first session of the suffix exactly when the gap to that session's
first event is at most the inactivity timeout (`is_new_session = time_diff >
30` minutes, transform.py line 55); the gap in minutes exceeds 30 iff the gap
in seconds exceeds `30 * 60`.  The `[] :: gs` case never arises (sessions are
nonempty) and is given an arbitrary value. -/
def sessionCons (timeoutMins : Int) (e : Event) : List (List Event) → List (List Event)
  | [] => [[e]]
  | [] :: gs => [e] :: [] :: gs
  | (f :: g) :: gs =>
    if f.timestamp - e.timestamp ≤ timeoutMins * 60 then (e :: f :: g) :: gs
    else [e] :: (f :: g) :: gs

/-- Split one client's event stream into sessions at inactivity gaps. -/
def sessionSplit (timeoutMins : Int) : List Event → List (List Event)
  | [] => []
  | e :: es => sessionCons timeoutMins e (sessionSplit timeoutMins es)

/-- A session row of the silver table (transform.py lines 59-65); the string
`session_id` key is omitted (no claim mentions it). -/
structure Session where
  client_id : String
  session_start : Int
  session_end : Int
  events : Nat
  channel : String
deriving DecidableEq

/-- Aggregate one group of events into a session row: client and channel from
the first event, min/max timestamps, member count (the `agg` of lines 59-64;
the channel of the first event is its `classify_channel` value). -/
def mkSession (g : List Event) : Session :=
  match g with
  | [] => ⟨"", 0, 0, 0, ""⟩
  | e :: es =>
    ⟨e.client_id,
     (es.map Event.timestamp).foldl min e.timestamp,
     (es.map Event.timestamp).foldl max e.timestamp,
     (e :: es).length,
     classify_channel e⟩

/-- The clients appearing in the batch (each once). -/
def clientIds (evs : List Event) : List String := (evs.map Event.client_id).dedup

/-- The events of one client (the groupby key of lines 54-56). -/
def clientEvents (cid : String) (evs : List Event) : List Event :=
  evs.filter (fun e => decide (e.client_id = cid))

/-- One client's events in timestamp order (lines 53). -/
def sortEvents (evs : List Event) : List Event := evs.insertionSort eventLe

/-- Sessionize one client's events: sort by timestamp, then split at
inactivity gaps. -/
def sessionize (evs : List Event) : List (List Event) :=
  sessionSplit INACTIVITY_TIMEOUT_MINS (sortEvents evs)

/-- The silver session table: every client's sessions (lines 53-65). -/
def silver_sessions (evs : List Event) : List Session :=
  ((clientIds evs).map (fun cid => (sessionize (clientEvents cid evs)).map mkSession)).flatten

/-- The conversion event names (transform.py line 68). -/
def CONVERSION_EVENTS : List String := ["purchase", "checkout_completed"]

/-- A conversion candidate row after `parse_rev` (lines 68-77). -/
structure Conv where
  client_id : String
  timestamp : Int
  revenue : ℚ
  transaction_id : Option JVal
deriving DecidableEq

/-- Filter conversion-named events and parse their payloads (lines 68-77). -/
def extractConvs (evs : List Event) : List Conv :=
  (evs.filter (fun e => decide (e.event_name ∈ CONVERSION_EVENTS))).map
    (fun e => ⟨e.client_id, e.timestamp, (parse_rev e.event_data).1, (parse_rev e.event_data).2⟩)

/-- The positive-revenue conversions (`conversions['revenue'] > 0`, line 78). -/
def posConvs (evs : List Event) : List Conv :=
  (extractConvs evs).filter (fun c => decide (0 < c.revenue))

/-- Ordering of conversions by timestamp (`sort_values('timestamp')`). -/
def convLe (a b : Conv) : Prop := a.timestamp ≤ b.timestamp

instance : DecidableRel convLe := fun a b => Int.decLe _ _
instance : IsTotal Conv convLe := ⟨fun a b => Int.le_total _ _⟩
instance : IsTrans Conv convLe := ⟨fun _ _ _ => Int.le_trans⟩

/-- `drop_duplicates('transaction_id')`: keep a row iff its id was not seen
earlier; pandas treats null ids as duplicates of each other, so the key type
is `Option JVal` and `none` keys collide. -/
def dropDupTid (seen : List (Option JVal)) : List Conv → List Conv
  | [] => []
  | c :: cs =>
    if c.transaction_id ∈ seen then dropDupTid seen cs
    else c :: dropDupTid (c.transaction_id :: seen) cs

/-- The deduplicated conversion set (line 78): positive revenue only, sorted
by timestamp, first occurrence of each transaction id kept. -/
def dedupedConvs (evs : List Event) : List Conv :=
  dropDupTid [] ((posConvs evs).insertionSort convLe)

/-- One gold attribution row (the dict of lines 91-103); field order matches
the dict keys `transaction_id, revenue, first_click, last_click`. -/
structure AttributionRow where
  transaction_id : Option JVal
  revenue : ℚ
  first_click : String
  last_click : String
deriving DecidableEq

/-- Ordering of sessions by start time (`sort_values('session_start')`). -/
def sessionLe (a b : Session) : Prop := a.session_start ≤ b.session_start

instance : DecidableRel sessionLe := fun a b => Int.decLe _ _
instance : IsTotal Session sessionLe := ⟨fun a b => Int.le_total _ _⟩
instance : IsTrans Session sessionLe := ⟨fun _ _ _ => Int.le_trans⟩

/-- The candidate sessions of a conversion (the mask of lines 84-86): same
client, start strictly before the conversion, start at or after the 7-day
lookback (`conv.timestamp` minus 7 days, in seconds). -/
def candidateSessions (sessions : List Session) (conv : Conv) : List Session :=
  sessions.filter (fun s => decide
    (s.client_id = conv.client_id ∧
     s.session_start < conv.timestamp ∧
     conv.timestamp - ATTRIBUTION_WINDOW_DAYS * 86400 ≤ s.session_start))

/-- Attribute one conversion (loop body, lines 81-103): sort the candidates
by start time; an empty candidate set yields the `Unattributed` sentinels,
otherwise first/last click are the channels of the first and last sorted
candidates (`iloc[0]` / `iloc[-1]`). -/
def attributeConv (sessions : List Session) (conv : Conv) : AttributionRow :=
  match (candidateSessions sessions conv).insertionSort sessionLe with
  | [] => ⟨conv.transaction_id, conv.revenue, "Unattributed", "Unattributed"⟩
  | s :: rest => ⟨conv.transaction_id, conv.revenue, s.channel, (rest.getLastD s).channel⟩

/-- The gold attribution table (lines 80-105): one row per deduplicated
conversion. -/
def gold_attribution (evs : List Event) : List AttributionRow :=
  (dedupedConvs evs).map (attributeConv (silver_sessions evs))

/-- The whole core pipeline on a cleaned event batch: the silver session
table and the gold attribution table. -/
def run_transformation (evs : List Event) : List Session × List AttributionRow :=
  (silver_sessions evs, gold_attribution evs)

/-- The column names of the emitted gold attribution CSV: the keys of the
row dicts built at lines 91-103. -/
def gold_columns : List String :=
  ["transaction_id", "revenue", "first_click", "last_click"]

/-- `REQUIRED_GOLD_COLS` (monitor.py line 29): the gold columns the
production monitor demands. -/
def REQUIRED_GOLD_COLS : List String :=
  ["transaction_id", "revenue", "first_click_channel", "last_click_channel", "conversion_time"]

/-! Concrete records used by counterexamples and witnesses. -/

/-- A purchase whose payload carries only a positive `total` (and an id). -/
def evTotal : Event :=
  ⟨"u1", 0, "purchase", "", none, some [("total", .num 80), ("transaction_id", .str "t1")]⟩

/-- Scenario B second payload: positive `revenue`, no transaction id. -/
def evRev30 : Event :=
  ⟨"u1", 0, "purchase", "", none, some [("revenue", .num 30)]⟩

/-- A purchase whose payload has a positive `value` and only an `order_id`. -/
def evOrder : Event :=
  ⟨"u1", 0, "purchase", "", none, some [("value", .num 50), ("order_id", .str "o1")]⟩

/-- Scenario A events of client u1 at minutes 0, 10 and 45. -/
def evA0 : Event := ⟨"u1", 0, "page_view", "", none, none⟩

/-- Scenario A, minute 10. -/
def evA10 : Event := ⟨"u1", 600, "page_view", "", none, none⟩

/-- Scenario A, minute 45. -/
def evA45 : Event := ⟨"u1", 2700, "page_view", "", none, none⟩

/-- Scenario E: transaction t9 purchased on day 2 for 100. -/
def evT9a : Event :=
  ⟨"u1", 172800, "purchase", "", none, some [("value", .num 100), ("transaction_id", .str "t9")]⟩

/-- Scenario E: transaction t9 purchased again on day 3 for 200. -/
def evT9b : Event :=
  ⟨"u1", 259200, "purchase", "", none, some [("value", .num 200), ("transaction_id", .str "t9")]⟩

/-- An id-less positive-revenue purchase on day 1. -/
def evN1 : Event :=
  ⟨"u2", 86400, "purchase", "", none, some [("revenue", .num 30)]⟩

/-- A second id-less positive-revenue conversion, on day 2. -/
def evN2 : Event :=
  ⟨"u2", 172800, "checkout_completed", "", none, some [("value", .num 40)]⟩

/-- A Direct session starting on day 1 (scenario C shape). -/
def sessDay1 : Session := ⟨"u1", 86400, 86400, 1, "Direct"⟩

/-- A Paid Search session starting on day 5 (scenario C shape). -/
def sessDay5 : Session := ⟨"u1", 432000, 432000, 1, "Paid Search"⟩

/-- A conversion of client u1 on day 6 (scenario C shape). -/
def convDay6 : Conv := ⟨"u1", 518400, 99, some (.str "tc")⟩

/-! ### Helper lemmas -/

instance : IsRefl Session sessionLe := ⟨fun _ => Int.le_refl _⟩

theorem foldl_min_le_init : ∀ (l : List Int) (a : Int), l.foldl min a ≤ a
  | [], a => le_refl a
  | b :: l, a => le_trans (foldl_min_le_init l (min a b)) (min_le_left a b)

theorem init_le_foldl_max : ∀ (l : List Int) (a : Int), a ≤ l.foldl max a
  | [], a => le_refl a
  | b :: l, a => le_trans (le_max_left a b) (init_le_foldl_max l (max a b))

theorem mkSession_start_le_end (g : List Event) (h : g ≠ []) :
    (mkSession g).session_start ≤ (mkSession g).session_end := by
  match g, h with
  | e :: es, _ =>
    exact le_trans (foldl_min_le_init (es.map Event.timestamp) e.timestamp)
      (init_le_foldl_max (es.map Event.timestamp) e.timestamp)

theorem mkSession_events_pos (g : List Event) (h : g ≠ []) : 1 ≤ (mkSession g).events := by
  match g, h with
  | e :: es, _ => exact Nat.succ_le_succ (Nat.zero_le _)

/-- The generic last-element counterpart of `List.rel_of_sorted_cons`. -/
theorem rel_getLast_of_sorted {α : Type} {r : α → α → Prop} [IsRefl α r] [IsTrans α r] :
    ∀ {l : List α}, l.Sorted r → ∀ a ∈ l, ∀ (h : l ≠ []), r a (l.getLast h)
  | [x], _, a, ha, _ => by
    rcases List.mem_singleton.mp ha with rfl
    exact refl_of r a
  | x :: y :: l, hs, a, ha, _ => by
    rw [List.getLast_cons (List.cons_ne_nil y l)]
    rcases List.mem_cons.mp ha with rfl | ha
    · exact List.rel_of_sorted_cons hs _ (List.getLast_mem (List.cons_ne_nil y l))
    · exact rel_getLast_of_sorted hs.of_cons a ha (List.cons_ne_nil y l)

theorem sessionCons_flatten (T : Int) (e : Event) (gs : List (List Event)) :
    (sessionCons T e gs).flatten = e :: gs.flatten := by
  match gs with
  | [] => rfl
  | [] :: gs => rfl
  | (f :: g) :: gs =>
    simp only [sessionCons]
    split <;> simp

theorem sessionSplit_flatten (T : Int) (es : List Event) :
    (sessionSplit T es).flatten = es := by
  induction es with
  | nil => rfl
  | cons e es ih => rw [sessionSplit, sessionCons_flatten, ih]

theorem sessionCons_ne_nil (T : Int) (e : Event) (gs : List (List Event))
    (h : [] ∉ gs) : [] ∉ sessionCons T e gs := by
  match gs with
  | [] => simp [sessionCons]
  | [] :: gs => exact absurd (List.mem_cons_self [] gs) h
  | (f :: g) :: gs =>
    simp only [sessionCons]
    split <;> simp_all

theorem sessionSplit_ne_nil (T : Int) (es : List Event) : [] ∉ sessionSplit T es := by
  induction es with
  | nil => simp [sessionSplit]
  | cons e es ih => exact sessionCons_ne_nil T e _ ih

/-- The in-session gap bound survives prepending an event. -/
theorem sessionCons_chain (T : Int) (e : Event) (gs : List (List Event))
    (h : ∀ g ∈ gs, List.Chain' (fun a b => b.timestamp - a.timestamp ≤ T * 60) g) :
    ∀ g ∈ sessionCons T e gs,
      List.Chain' (fun a b => b.timestamp - a.timestamp ≤ T * 60) g := by
  match gs with
  | [] =>
    intro g hg
    rcases List.mem_singleton.mp hg with rfl
    exact List.chain'_singleton e
  | [] :: gs =>
    intro g hg
    rcases List.mem_cons.mp hg with rfl | hg
    · exact List.chain'_singleton e
    · exact h g hg
  | (f :: g0) :: gs =>
    simp only [sessionCons]
    split
    · intro g hg
      rcases List.mem_cons.mp hg with rfl | hg
      · exact List.chain'_cons.mpr ⟨by assumption, h _ (List.mem_cons_self _ _)⟩
      · exact h g (List.mem_cons_of_mem _ hg)
    · intro g hg
      rcases List.mem_cons.mp hg with rfl | hg
      · exact List.chain'_singleton e
      · exact h g hg

theorem sessionSplit_chain (T : Int) (es : List Event) :
    ∀ g ∈ sessionSplit T es,
      List.Chain' (fun a b => b.timestamp - a.timestamp ≤ T * 60) g := by
  induction es with
  | nil => simp [sessionSplit]
  | cons e es ih => exact sessionCons_chain T e _ ih

/-- The between-session gap bound, as a chain over the emitted groups. -/
def boundaryGap (T : Int) (g h : List Event) : Prop :=
  T * 60 < (h.headD default).timestamp - (g.getLastD default).timestamp

theorem sessionCons_boundary (T : Int) (e : Event) (gs : List (List Event))
    (hnil : [] ∉ gs) (h : List.Chain' (boundaryGap T) gs) :
    List.Chain' (boundaryGap T) (sessionCons T e gs) := by
  match gs with
  | [] => exact List.chain'_singleton [e]
  | [] :: gs => exact absurd (List.mem_cons_self [] gs) hnil
  | (f :: g0) :: gs =>
    simp only [sessionCons]
    split
    · match gs with
      | [] => exact List.chain'_singleton _
      | g1 :: gs =>
        rcases List.chain'_cons.mp h with ⟨hb, hrest⟩
        refine List.chain'_cons.mpr ⟨?_, hrest⟩
        unfold boundaryGap at hb ⊢
        rw [List.getLastD_cons] at hb
        rw [List.getLastD_cons, List.getLastD_cons]
        exact hb
    · refine List.chain'_cons.mpr ⟨?_, h⟩
      unfold boundaryGap
      rw [List.headD_cons, List.getLastD_cons, List.getLastD_nil]
      omega

theorem sessionSplit_boundary (T : Int) (es : List Event) :
    List.Chain' (boundaryGap T) (sessionSplit T es) := by
  induction es with
  | nil => exact List.chain'_nil
  | cons e es ih => exact sessionCons_boundary T e _ (sessionSplit_ne_nil T es) ih

theorem dropDupTid_subset (seen : List (Option JVal)) (cs : List Conv) :
    ∀ c ∈ dropDupTid seen cs, c ∈ cs := by
  induction cs generalizing seen with
  | nil => simp [dropDupTid]
  | cons d cs ih =>
    intro c hc
    unfold dropDupTid at hc
    split at hc
    · exact List.mem_cons_of_mem d (ih seen c hc)
    · rcases List.mem_cons.mp hc with rfl | hc
      · exact List.mem_cons_self c cs
      · exact List.mem_cons_of_mem d (ih _ c hc)

theorem dropDupTid_key_not_seen (seen : List (Option JVal)) (cs : List Conv) :
    ∀ c ∈ dropDupTid seen cs, c.transaction_id ∉ seen := by
  induction cs generalizing seen with
  | nil => simp [dropDupTid]
  | cons d cs ih =>
    intro c hc
    unfold dropDupTid at hc
    split at hc
    · exact ih seen c hc
    · rcases List.mem_cons.mp hc with rfl | hc
      · assumption
      · exact fun hin => ih _ c hc (List.mem_cons_of_mem _ hin)

theorem dropDupTid_exists (seen : List (Option JVal)) (cs : List Conv)
    (tid : Option JVal) (hn : tid ∉ seen) (h : ∃ c ∈ cs, c.transaction_id = tid) :
    ∃ c ∈ dropDupTid seen cs, c.transaction_id = tid := by
  induction cs generalizing seen with
  | nil => simp at h
  | cons d cs ih =>
    unfold dropDupTid
    split
    · rcases h with ⟨c, hc, hk⟩
      rcases List.mem_cons.mp hc with rfl | hc
      · exact absurd (hk ▸ ‹c.transaction_id ∈ seen›) hn
      · exact ih seen hn ⟨c, hc, hk⟩
    · by_cases hd : d.transaction_id = tid
      · exact ⟨d, List.mem_cons_self d _, hd⟩
      · rcases h with ⟨c, hc, hk⟩
        rcases List.mem_cons.mp hc with rfl | hc
        · exact absurd hk hd
        · have hn' : tid ∉ d.transaction_id :: seen := by
            intro hin
            rcases List.mem_cons.mp hin with rfl | hin
            · exact hd rfl
            · exact hn hin
          rcases ih (d.transaction_id :: seen) hn' ⟨c, hc, hk⟩ with ⟨c', hc', hk'⟩
          exact ⟨c', List.mem_cons_of_mem d hc', hk'⟩

theorem dropDupTid_min (seen : List (Option JVal)) (cs : List Conv)
    (hs : cs.Sorted convLe) :
    ∀ c ∈ dropDupTid seen cs, ∀ c' ∈ cs,
      c'.transaction_id = c.transaction_id → c.timestamp ≤ c'.timestamp := by
  induction cs generalizing seen with
  | nil => simp [dropDupTid]
  | cons d cs ih =>
    intro c hc c' hc' hk
    unfold dropDupTid at hc
    split at hc
    · rename_i hseen
      rcases List.mem_cons.mp hc' with rfl | hc'
      · exfalso
        exact dropDupTid_key_not_seen seen cs c hc (hk ▸ hseen)
      · exact ih seen hs.of_cons c hc c' hc' hk
    · rcases List.mem_cons.mp hc with rfl | hc
      · rcases List.mem_cons.mp hc' with rfl | hc'
        · exact le_refl _
        · exact List.rel_of_sorted_cons hs c' hc'
      · rcases List.mem_cons.mp hc' with rfl | hc'
        · exfalso
          exact dropDupTid_key_not_seen _ cs c hc (hk ▸ List.mem_cons_self _ seen)
        · exact ih _ hs.of_cons c hc c' hc' hk

theorem dropDupTid_keys_pairwise (seen : List (Option JVal)) (cs : List Conv) :
    (dropDupTid seen cs).Pairwise
      (fun a b => a.transaction_id ≠ b.transaction_id) := by
  induction cs generalizing seen with
  | nil => exact List.Pairwise.nil
  | cons d cs ih =>
    unfold dropDupTid
    split
    · exact ih seen
    · refine List.pairwise_cons.mpr ⟨?_, ih _⟩
      intro b hb hkey
      exact dropDupTid_key_not_seen _ cs b hb (hkey ▸ List.mem_cons_self _ seen)

/-- In a list whose transaction ids are pairwise distinct, filtering by the
id of a member returns exactly that member. -/
theorem filter_key_eq_single :
    ∀ {l : List Conv},
      l.Pairwise (fun a b => a.transaction_id ≠ b.transaction_id) →
      ∀ {c : Conv}, c ∈ l → ∀ tid, c.transaction_id = tid →
      l.filter (fun d => decide (d.transaction_id = tid)) = [c]
  | [], _, c, hc, _, _ => absurd hc (List.not_mem_nil c)
  | x :: l, hp, c, hc, tid, hk => by
    rcases List.pairwise_cons.mp hp with ⟨hx, hp'⟩
    rcases List.mem_cons.mp hc with rfl | hc
    · rw [List.filter_cons_of_pos (by simp [hk])]
      have : l.filter (fun d => decide (d.transaction_id = tid)) = [] := by
        rw [List.filter_eq_nil_iff]
        intro d hd
        simp only [decide_eq_true_iff]
        intro hdk
        exact hx d hd (hk ▸ hdk.symm ▸ rfl)
      rw [this]
    · have hxk : ¬ (x.transaction_id = tid) := by
        intro hxe
        exact hx c hc (hxe.trans hk.symm)
      rw [List.filter_cons_of_neg (by simpa using hxk)]
      exact filter_key_eq_single hp' hc tid hk

/-- `attributeConv` copies the conversion's transaction id to its row. -/
theorem attributeConv_tid (s : List Session) (c : Conv) :
    (attributeConv s c).transaction_id = c.transaction_id := by
  unfold attributeConv
  split <;> rfl

/-- `attributeConv` copies the conversion's revenue to its row. -/
theorem attributeConv_revenue (s : List Session) (c : Conv) :
    (attributeConv s c).revenue = c.revenue := by
  unfold attributeConv
  split <;> rfl

/-- Every positive-revenue conversion row originates from a conversion-named
event of the batch whose payload parsed (a missing or unparsable payload
parses to revenue 0 and is excluded by the positivity filter). -/
theorem posConvs_source (evs : List Event) :
    ∀ c ∈ posConvs evs, 0 < c.revenue ∧
      ∃ e ∈ evs, e.event_name ∈ CONVERSION_EVENTS ∧ e.event_data ≠ none ∧
        (parse_rev e.event_data).1 = c.revenue ∧
        (parse_rev e.event_data).2 = c.transaction_id := by
  intro c hc
  rcases List.mem_filter.mp hc with ⟨hmem, hpos⟩
  have hpos' : (0 : ℚ) < c.revenue := of_decide_eq_true hpos
  refine ⟨hpos', ?_⟩
  rcases List.mem_map.mp hmem with ⟨e, he, rfl⟩
  rcases List.mem_filter.mp he with ⟨he', hname⟩
  refine ⟨e, he', of_decide_eq_true hname, ?_, rfl, rfl⟩
  intro hnone
  rw [hnone] at hpos'
  exact absurd hpos' (by norm_num [parse_rev])

/-! ### Claim theorems -/

/-- C8: the channel classifier is a pure total function: on every event it
equals first-match evaluation of the ordered decision list `channelRules`
(paid-search marker, then paid-social source, then email medium, then
search-engine referrer, then social referrer, then empty-referrer Direct,
then the Referral default), and its value is always one of the seven labels. -/
theorem classify_channel_decision_list (e : Event) :
    classify_channel e = firstMatch channelRules (urlOf e) (refOf e) ∧
    classify_channel e ∈ CHANNEL_LABELS := by
  constructor
  · simp only [classify_channel, channelRules, firstMatch]
  · simp only [classify_channel, CHANNEL_LABELS]
    split_ifs <;> simp

/-- C1 counterexample: a purchase whose payload has a positive `total` but
neither `value` nor `revenue` parses to revenue 0 and yields no attribution
row — `parse_rev` never probes `total`. -/
theorem total_key_not_probed :
    (parse_rev evTotal.event_data).1 = 0 ∧
    evTotal.event_name ∈ CONVERSION_EVENTS ∧
    gold_attribution [evTotal] = [] := by decide

/-- C1 amended: revenue is resolved by probing only `value` and then
`revenue`; a parsed payload containing neither key (whatever other keys such
as `total` it carries) resolves to revenue 0, and no zero-revenue conversion
ever reaches the gold table (every emitted conversion has positive revenue). -/
theorem revenue_probe_value_revenue_only (d : Payload)
    (h1 : pget d "value" = none) (h2 : pget d "revenue" = none) :
    (parse_rev (some d)).1 = 0 ∧
    ∀ evs : List Event, ∀ c ∈ posConvs evs, 0 < c.revenue := by
  constructor
  · simp [parse_rev, pyOr, h1, h2, toFloat]
  · intro evs c hc
    exact (posConvs_source evs c hc).1

/-- Witness for C1's amended theorem at the `total`-only payload. -/
theorem revenue_probe_value_revenue_only_witness :
    (parse_rev (some [("total", .num 80), ("transaction_id", .str "t1")])).1 = 0 ∧
    ∀ evs : List Event, ∀ c ∈ posConvs evs, 0 < c.revenue :=
  revenue_probe_value_revenue_only
    [("total", .num 80), ("transaction_id", .str "t1")] (by decide) (by decide)

/-- C2 counterexample: the positive-revenue payload with no transaction id
(scenario B's second payload) is not dropped: it produces exactly one gold
row, carrying a null transaction id. -/
theorem idless_conversion_not_dropped :
    gold_attribution [evRev30] = [⟨none, 30, "Unattributed", "Unattributed"⟩] := by decide

/-- C2 amended: conversion events whose payload is missing or unparsable are
dropped (every emitted conversion originates from a parsable payload and has
positive revenue), but a positive-revenue payload with no usable transaction
id is kept: it yields a row with a null transaction id. -/
theorem unparsable_dropped_idless_kept :
    (∀ evs : List Event, ∀ c ∈ posConvs evs, 0 < c.revenue ∧
      ∃ e ∈ evs, e.event_name ∈ CONVERSION_EVENTS ∧ e.event_data ≠ none ∧
        (parse_rev e.event_data).1 = c.revenue ∧
        (parse_rev e.event_data).2 = c.transaction_id) ∧
    gold_attribution [evRev30] = [⟨none, 30, "Unattributed", "Unattributed"⟩] :=
  ⟨posConvs_source, by decide⟩

/-- Witness for C2's amended theorem at a one-event batch. -/
theorem unparsable_dropped_idless_kept_witness :
    0 < ((⟨"u1", 0, 30, none⟩ : Conv)).revenue ∧
    ∃ e ∈ [evRev30], e.event_name ∈ CONVERSION_EVENTS ∧ e.event_data ≠ none ∧
      (parse_rev e.event_data).1 = (30 : ℚ) ∧
      (parse_rev e.event_data).2 = none :=
  unparsable_dropped_idless_kept.1 [evRev30] ⟨"u1", 0, 30, none⟩ (by decide)

/-- C3 counterexample: a purchase whose payload has an `order_id` but no
`transaction_id` is treated as id-less — its parsed identity is null and its
gold row carries a null transaction id (`parse_rev` never probes
`order_id`). -/
theorem order_id_not_probed :
    (parse_rev evOrder.event_data).2 = none ∧
    gold_attribution [evOrder] = [⟨none, 50, "Unattributed", "Unattributed"⟩] := by decide

/-- C3 amended: the transaction identity is resolved only from the
`transaction_id` key; a parsed payload without that key (whatever other keys
such as `order_id` it carries) yields a null identity. -/
theorem identity_probe_transaction_id_only (d : Payload)
    (h : pget d "transaction_id" = none) :
    (parse_rev (some d)).2 = none := by
  unfold parse_rev
  cases htf : toFloat (pyOr (pget d "value") (pyOr (pget d "revenue") (JVal.num 0))) with
  | none => simp [htf]
  | some q => simp [htf, h]

/-- Witness for C3's amended theorem at the `order_id`-only payload. -/
theorem identity_probe_transaction_id_only_witness :
    (parse_rev (some [("value", .num 50), ("order_id", .str "o1")])).2 = none :=
  identity_probe_transaction_id_only
    [("value", .num 50), ("order_id", .str "o1")] (by decide)

/-- C9 counterexample: the emitted gold CSV's columns are not the claimed
ones — the channel columns are named `first_click` and `last_click`, so
`first_click_channel` is absent (and the monitor's required gold columns are
not all present either). -/
theorem gold_columns_mismatch :
    gold_columns ≠ ["transaction_id", "revenue", "first_click_channel", "last_click_channel"] ∧
    "first_click_channel" ∉ gold_columns ∧
    ¬ (∀ col ∈ REQUIRED_GOLD_COLS, col ∈ gold_columns) := by decide

/-- C9 amended: the emitted attribution table has exactly the columns
`transaction_id, revenue, first_click, last_click`, with one row per
deduplicated conversion, every one of which has positive revenue; the
monitor's `REQUIRED_GOLD_COLS` are not a subset of these columns. -/
theorem gold_table_shape :
    gold_columns = ["transaction_id", "revenue", "first_click", "last_click"] ∧
    (∀ evs : List Event, (gold_attribution evs).length = (dedupedConvs evs).length ∧
      ∀ c ∈ dedupedConvs evs, 0 < c.revenue) ∧
    ¬ (∀ col ∈ REQUIRED_GOLD_COLS, col ∈ gold_columns) := by
  refine ⟨rfl, ?_, by decide⟩
  intro evs
  refine ⟨List.length_map _ _, ?_⟩
  intro c hc
  have hc' : c ∈ (posConvs evs).insertionSort convLe := dropDupTid_subset _ _ c hc
  have hc'' : c ∈ posConvs evs := (List.mem_insertionSort convLe).mp hc'
  exact (posConvs_source evs c hc'').1

/-- Witness for C9's amended theorem at a one-event batch. -/
theorem gold_table_shape_witness :
    (gold_attribution [evT9a]).length = (dedupedConvs [evT9a]).length ∧
    ∀ c ∈ dedupedConvs [evT9a], 0 < c.revenue :=
  gold_table_shape.2.1 [evT9a]

/-- C6: on any event stream of one client, the sessionizer's groups cover the
stream (a session starts at the first event), every in-session consecutive
gap is at most 30 minutes (a gap of exactly 30 minutes or zero never starts a
session), and every between-session gap strictly exceeds 30 minutes (so a new
session starts exactly at the events whose gap exceeds the timeout).  No
ordering hypothesis is needed: the properties hold for the split of any
stream, in particular a time-ordered one. -/
theorem session_boundaries (es : List Event) :
    (sessionSplit INACTIVITY_TIMEOUT_MINS es).flatten = es ∧
    (∀ g ∈ sessionSplit INACTIVITY_TIMEOUT_MINS es,
      List.Chain' (fun a b => b.timestamp - a.timestamp ≤ INACTIVITY_TIMEOUT_MINS * 60) g) ∧
    List.Chain' (boundaryGap INACTIVITY_TIMEOUT_MINS)
      (sessionSplit INACTIVITY_TIMEOUT_MINS es) :=
  ⟨sessionSplit_flatten _ es, sessionSplit_chain _ es, sessionSplit_boundary _ es⟩

/-- Witness for C6 on scenario A (events at minutes 0, 10, 45): the split is
`[0,10]` and `[45]`, and the kept 10-minute gap satisfies the in-session
bound. -/
theorem session_boundaries_witness :
    sessionSplit INACTIVITY_TIMEOUT_MINS [evA0, evA10, evA45] = [[evA0, evA10], [evA45]] ∧
    List.Chain' (fun a b => b.timestamp - a.timestamp ≤ INACTIVITY_TIMEOUT_MINS * 60)
      [evA0, evA10] :=
  ⟨by decide, (session_boundaries [evA0, evA10, evA45]).2.1 [evA0, evA10] (by decide)⟩

/-- C7: every emitted session has `start_time ≤ end_time` and at least one
event, and for every client the event groups underlying that client's
sessions are a permutation of (exactly cover) the client's events: each event
lands in exactly one session. -/
theorem sessions_partition (evs : List Event) :
    (∀ s ∈ silver_sessions evs, s.session_start ≤ s.session_end ∧ 1 ≤ s.events) ∧
    (∀ cid : String,
      ((sessionize (clientEvents cid evs)).flatten).Perm (clientEvents cid evs)) := by
  constructor
  · intro s hs
    unfold silver_sessions at hs
    rcases List.mem_flatten.mp hs with ⟨l, hl, hsl⟩
    rcases List.mem_map.mp hl with ⟨cid, _, rfl⟩
    rcases List.mem_map.mp hsl with ⟨g, hg, rfl⟩
    have hne : g ≠ [] := fun h0 => sessionSplit_ne_nil _ _ (h0 ▸ hg)
    exact ⟨mkSession_start_le_end g hne, mkSession_events_pos g hne⟩
  · intro cid
    unfold sessionize sortEvents
    rw [sessionSplit_flatten]
    exact List.perm_insertionSort eventLe _

/-- Witness for C7 on the scenario A batch. -/
theorem sessions_partition_witness :
    (⟨"u1", 0, 600, 2, "Direct"⟩ : Session).session_start ≤
      (⟨"u1", 0, 600, 2, "Direct"⟩ : Session).session_end ∧
    1 ≤ (⟨"u1", 0, 600, 2, "Direct"⟩ : Session).events :=
  (sessions_partition [evA0, evA10, evA45]).1 ⟨"u1", 0, 600, 2, "Direct"⟩ (by decide)

/-- C4: the gold table has one row per deduplicated conversion; the candidate
set of a conversion is exactly the same-client sessions starting in the
half-open window `[timestamp − 7 days, timestamp)`; a conversion with no
candidates gets the `Unattributed` sentinels, otherwise its first click is
the channel of a minimal-start candidate and its last click the channel of a
maximal-start candidate. -/
theorem attribution_window_first_last :
    (∀ evs : List Event, (gold_attribution evs).length = (dedupedConvs evs).length) ∧
    (∀ (sessions : List Session) (conv : Conv),
      (∀ s : Session, s ∈ candidateSessions sessions conv ↔
        (s ∈ sessions ∧ s.client_id = conv.client_id ∧
         s.session_start < conv.timestamp ∧
         conv.timestamp - ATTRIBUTION_WINDOW_DAYS * 86400 ≤ s.session_start)) ∧
      ((attributeConv sessions conv).transaction_id = conv.transaction_id ∧
       (attributeConv sessions conv).revenue = conv.revenue) ∧
      (candidateSessions sessions conv = [] →
        (attributeConv sessions conv).first_click = "Unattributed" ∧
        (attributeConv sessions conv).last_click = "Unattributed") ∧
      (candidateSessions sessions conv ≠ [] →
        (∃ s ∈ candidateSessions sessions conv,
          (attributeConv sessions conv).first_click = s.channel ∧
          ∀ t ∈ candidateSessions sessions conv, s.session_start ≤ t.session_start) ∧
        (∃ s ∈ candidateSessions sessions conv,
          (attributeConv sessions conv).last_click = s.channel ∧
          ∀ t ∈ candidateSessions sessions conv, t.session_start ≤ s.session_start))) := by
  refine ⟨fun evs => List.length_map _ _, fun sessions conv => ⟨?_, ⟨attributeConv_tid _ _, attributeConv_revenue _ _⟩, ?_, ?_⟩⟩
  · intro s
    unfold candidateSessions
    rw [List.mem_filter, decide_eq_true_iff]
  · intro hc
    simp [attributeConv, hc]
  · intro hne
    cases hsorted : (candidateSessions sessions conv).insertionSort sessionLe with
    | nil =>
      have hp := List.perm_insertionSort sessionLe (candidateSessions sessions conv)
      rw [hsorted] at hp
      exact absurd (List.perm_nil.mp hp.symm) hne
    | cons s rest =>
      have hperm : (s :: rest).Perm (candidateSessions sessions conv) :=
        hsorted ▸ List.perm_insertionSort sessionLe _
      have hsort : (s :: rest).Sorted sessionLe :=
        hsorted ▸ List.sorted_insertionSort sessionLe _
      have hrow : attributeConv sessions conv =
          ⟨conv.transaction_id, conv.revenue, s.channel, (rest.getLastD s).channel⟩ := by
        unfold attributeConv
        rw [hsorted]
      constructor
      · refine ⟨s, hperm.mem_iff.mp (List.mem_cons_self s rest), ?_, ?_⟩
        · rw [hrow]
        · intro t ht
          rcases List.mem_cons.mp (hperm.mem_iff.mpr ht) with rfl | ht'
          · exact le_refl _
          · exact List.rel_of_sorted_cons hsort t ht'
      · have hlast : rest.getLastD s = (s :: rest).getLast (List.cons_ne_nil s rest) :=
          (List.getLast_eq_getLastD s rest (List.cons_ne_nil s rest)).symm
        refine ⟨rest.getLastD s, ?_, ?_, ?_⟩
        · rw [hlast]
          exact hperm.mem_iff.mp (List.getLast_mem (List.cons_ne_nil s rest))
        · rw [hrow]
        · intro t ht
          have : sessionLe t ((s :: rest).getLast (List.cons_ne_nil s rest)) :=
            rel_getLast_of_sorted hsort t (hperm.mem_iff.mpr ht) (List.cons_ne_nil s rest)
          rw [hlast]
          exact this

/-- Witness for C4 on the scenario C shape: sessions `Direct` (day 1) and
`Paid Search` (day 5), conversion on day 6 — both sessions are candidates,
first click `Direct`, last click `Paid Search`. -/
theorem attribution_window_first_last_witness :
    (attributeConv [sessDay1, sessDay5] convDay6).first_click = "Direct" ∧
    (attributeConv [sessDay1, sessDay5] convDay6).last_click = "Paid Search" ∧
    (∃ s ∈ candidateSessions [sessDay1, sessDay5] convDay6,
      (attributeConv [sessDay1, sessDay5] convDay6).first_click = s.channel ∧
      ∀ t ∈ candidateSessions [sessDay1, sessDay5] convDay6,
        s.session_start ≤ t.session_start) ∧
    (∃ s ∈ candidateSessions [sessDay1, sessDay5] convDay6,
      (attributeConv [sessDay1, sessDay5] convDay6).last_click = s.channel ∧
      ∀ t ∈ candidateSessions [sessDay1, sessDay5] convDay6,
        t.session_start ≤ s.session_start) :=
  ⟨by decide, by decide,
    (attribution_window_first_last.2 [sessDay1, sessDay5] convDay6).2.2.2 (by decide)⟩

/-- Shared kernel of claims about `drop_duplicates('transaction_id')`: if
some positive-revenue conversion has key `tid`, then exactly one conversion
with key `tid` survives deduplication, it comes from the batch, and its
timestamp is minimal among the batch's conversions with that key. -/
theorem dedupedConvs_key_spec (evs : List Event) (tid : Option JVal)
    (h : ∃ c ∈ posConvs evs, c.transaction_id = tid) :
    ∃ c, c ∈ posConvs evs ∧ c.transaction_id = tid ∧
      (∀ c' ∈ posConvs evs, c'.transaction_id = tid → c.timestamp ≤ c'.timestamp) ∧
      (dedupedConvs evs).filter (fun d => decide (d.transaction_id = tid)) = [c] := by
  rcases h with ⟨c0, hc0, hk0⟩
  have hsortmem : c0 ∈ (posConvs evs).insertionSort convLe :=
    (List.mem_insertionSort convLe).mpr hc0
  rcases dropDupTid_exists [] _ tid (by simp) ⟨c0, hsortmem, hk0⟩ with ⟨c, hc, hk⟩
  have hmem : c ∈ posConvs evs :=
    (List.mem_insertionSort convLe).mp (dropDupTid_subset _ _ c hc)
  refine ⟨c, hmem, hk, ?_, ?_⟩
  · intro c' hc' hk'
    exact dropDupTid_min [] _ (List.sorted_insertionSort convLe _) c hc c'
      ((List.mem_insertionSort convLe).mpr hc') (hk'.trans hk.symm)
  · unfold dedupedConvs
    exact filter_key_eq_single (dropDupTid_keys_pairwise [] _) hc tid hk

/-- The gold rows with a given transaction id are the attributed images of
the deduplicated conversions with that id. -/
theorem gold_filter_key (evs : List Event) (tid : Option JVal) (c : Conv)
    (hfilter : (dedupedConvs evs).filter (fun d => decide (d.transaction_id = tid)) = [c]) :
    (gold_attribution evs).filter (fun r => decide (r.transaction_id = tid)) =
      [attributeConv (silver_sessions evs) c] := by
  unfold gold_attribution
  rw [List.filter_map]
  have hcomp : ((fun r : AttributionRow => decide (r.transaction_id = tid)) ∘
      attributeConv (silver_sessions evs)) =
      fun d : Conv => decide (d.transaction_id = tid) := by
    funext d
    simp [Function.comp, attributeConv_tid]
  rw [hcomp, hfilter]
  rfl

/-- C5: among conversions sharing a transaction id, deduplication keeps
exactly one — an earliest-timestamped one — and the single gold row with that
id carries the kept conversion's revenue. -/
theorem dedup_keeps_earliest (evs : List Event) (tid : Option JVal)
    (h : ∃ c ∈ posConvs evs, c.transaction_id = tid) :
    ∃ c, c ∈ posConvs evs ∧ c.transaction_id = tid ∧
      (∀ c' ∈ posConvs evs, c'.transaction_id = tid → c.timestamp ≤ c'.timestamp) ∧
      (dedupedConvs evs).filter (fun d => decide (d.transaction_id = tid)) = [c] ∧
      (gold_attribution evs).filter (fun r => decide (r.transaction_id = tid)) =
        [attributeConv (silver_sessions evs) c] ∧
      (attributeConv (silver_sessions evs) c).revenue = c.revenue := by
  rcases dedupedConvs_key_spec evs tid h with ⟨c, hmem, hk, hmin, hfilter⟩
  exact ⟨c, hmem, hk, hmin, hfilter, gold_filter_key evs tid c hfilter,
    attributeConv_revenue _ _⟩

/-- Witness for C5 on scenario E: transaction `t9` bought on day 2 (for 100)
and day 3 (for 200) yields exactly one gold row, with the day-2 revenue. -/
theorem dedup_keeps_earliest_witness :
    gold_attribution [evT9b, evT9a] =
      [⟨some (.str "t9"), 100, "Unattributed", "Unattributed"⟩] ∧
    ∃ c, c ∈ posConvs [evT9b, evT9a] ∧ c.transaction_id = some (.str "t9") ∧
      (∀ c' ∈ posConvs [evT9b, evT9a],
        c'.transaction_id = some (.str "t9") → c.timestamp ≤ c'.timestamp) ∧
      (dedupedConvs [evT9b, evT9a]).filter
        (fun d => decide (d.transaction_id = some (.str "t9"))) = [c] ∧
      (gold_attribution [evT9b, evT9a]).filter
        (fun r => decide (r.transaction_id = some (.str "t9"))) =
        [attributeConv (silver_sessions [evT9b, evT9a]) c] ∧
      (attributeConv (silver_sessions [evT9b, evT9a]) c).revenue = c.revenue :=
  ⟨by decide, dedup_keeps_earliest [evT9b, evT9a] (some (.str "t9"))
    ⟨⟨"u1", 172800, 100, some (.str "t9")⟩, by decide, rfl⟩⟩

/-- C10: if the batch has positive-revenue conversions with no transaction
id, they share the null dedup key: exactly one gold row with a null
transaction id is emitted, carrying the revenue of an earliest-timestamped
id-less conversion. -/
theorem idless_group_single_row (evs : List Event)
    (h : ∃ c ∈ posConvs evs, c.transaction_id = none) :
    ∃ c, c ∈ posConvs evs ∧ c.transaction_id = none ∧
      (∀ c' ∈ posConvs evs, c'.transaction_id = none → c.timestamp ≤ c'.timestamp) ∧
      (gold_attribution evs).filter (fun r => decide (r.transaction_id = none)) =
        [attributeConv (silver_sessions evs) c] ∧
      (attributeConv (silver_sessions evs) c).transaction_id = none ∧
      (attributeConv (silver_sessions evs) c).revenue = c.revenue := by
  rcases dedupedConvs_key_spec evs none h with ⟨c, hmem, hk, hmin, hfilter⟩
  refine ⟨c, hmem, hk, hmin, gold_filter_key evs none c hfilter, ?_,
    attributeConv_revenue _ _⟩
  rw [attributeConv_tid]
  exact hk

/-- Witness for C10: two id-less positive-revenue conversions on day 1 (for
30) and day 2 (for 40) collapse to a single null-id gold row with revenue
30. -/
theorem idless_group_single_row_witness :
    gold_attribution [evN1, evN2] = [⟨none, 30, "Unattributed", "Unattributed"⟩] ∧
    ∃ c, c ∈ posConvs [evN1, evN2] ∧ c.transaction_id = none ∧
      (∀ c' ∈ posConvs [evN1, evN2],
        c'.transaction_id = none → c.timestamp ≤ c'.timestamp) ∧
      (gold_attribution [evN1, evN2]).filter
        (fun r => decide (r.transaction_id = none)) =
        [attributeConv (silver_sessions [evN1, evN2]) c] ∧
      (attributeConv (silver_sessions [evN1, evN2]) c).transaction_id = none ∧
      (attributeConv (silver_sessions [evN1, evN2]) c).revenue = c.revenue :=
  ⟨by decide, idless_group_single_row [evN1, evN2]
    ⟨⟨"u2", 86400, 30, none⟩, by decide, rfl⟩⟩

end Puffy
